import Mathlib

/-!
Verification of the xpra win32 keyboard handler
(`xpra/platform/win32/keyboard.py`) and of the audio option parser
(`xpra/audio/common.py`).

The Python code is shallowly embedded: each method becomes a pure Lean
function, the mutable `Keyboard` object becomes an explicit state record,
and every live OS query (`GetKeyState`) becomes an input value supplied at
the corresponding call site.  Event delivery to the parent class
(`super().process_key_event`) is modelled as an output list of
`(wid, KeyEvent)` pairs.
-/

/-- Python truthiness of an optional string: `None` and the empty string
are falsy, every other string is truthy. -/
def strTruthy : Option String → Bool
  | none => false
  | some s => !(s == "")

/-- The code treats a `GetKeyState(VK_RMENU)` result in `(0, 1)` as
"Right Alt is up"; any other value means the key is physically down. -/
def rmenuUp (v : Int) : Bool := v == 0 || v == 1

/-- A key event as it flows through `process_key_event`
(`keyname`, `keyval`, `keycode`, `group`, `modifiers`, `pressed`, `string`). -/
structure KeyEvent where
  keyname : String
  keyval : Int
  keycode : Int
  group : Int
  modifiers : List String
  pressed : Bool
  string : String
deriving Repr, DecidableEq

/-- Embedding of `Keyboard.AltGr_modifiers(modifiers, pressed=True)`:
build `add`/`clear` lists (clear always starts with mod1, mod2, control),
append the members of `add` that are missing, then remove the members of
`clear` that are present (Python `list.remove` drops the first occurrence,
which `List.erase` matches). -/
def AltGr_modifiers (altgr_modifier : Option String) (modifiers : List String)
    (pressed : Bool) : List String :=
  let addClear : List String × List String :=
    match altgr_modifier with
    | some a =>
      if a == "" then ([], ["mod1", "mod2", "control"])
      else if pressed then ([a], ["mod1", "mod2", "control"])
      else ([], ["mod1", "mod2", "control", a])
    | none => ([], ["mod1", "mod2", "control"])
  let m1 := addClear.1.foldl (fun ms x => if x ∈ ms then ms else ms ++ [x]) modifiers
  addClear.2.foldl (fun ms x => ms.erase x) m1

/-- The X11 modifier tokens and their mask bits, in canonical order. -/
def MODIFIER_BITS : List (String × Nat) :=
  [("shift", 1), ("lock", 2), ("control", 4), ("mod1", 8),
   ("mod2", 16), ("mod3", 32), ("mod4", 64), ("mod5", 128)]

/-- Modelled from the spec: `KeyboardBase.mask_to_names` (the base class is
not part of the provided sources).  Per the spec it "decomposes a bitmask
into the modifier tokens whose bit is set, in a fixed canonical order" over
the vocabulary shift, lock, control, mod1..mod5. -/
def base_mask_to_names (mask : Nat) : List String :=
  (MODIFIER_BITS.filter (fun p => decide (mask &&& p.2 ≠ 0))).map Prod.fst

/-- The results of the live `GetKeyState` queries made inside
`mask_to_names`: `rmenu` for `VK_RMENU` and `numlock` for `VK_NUMLOCK`. -/
structure MaskQueries where
  rmenu : Int
  numlock : Int
deriving Repr, DecidableEq

/-- Embedding of `Keyboard.mask_to_names(mask)`: base decomposition, then
the AltGr patch (when emulation is on and Right Alt reads down), then the
NumLock patch (when a NumLock modifier token is bound). -/
def mask_to_names (emulate_altgr : Bool) (altgr_modifier num_lock_modifier : Option String)
    (q : MaskQueries) (mask : Nat) : List String :=
  let names := base_mask_to_names mask
  let names :=
    if emulate_altgr && !(rmenuUp q.rmenu) then AltGr_modifiers altgr_modifier names true
    else names
  match num_lock_modifier with
  | some nl =>
    if nl == "" then names
    else if q.numlock ≠ 0 then (if nl ∈ names then names else names ++ [nl])
    else names.erase nl
  | none => names

/-- The AltGr quirk step of `mask_to_names` in isolation. -/
def altgrStep (emulate_altgr : Bool) (altgr_modifier : Option String) (rmenu : Int)
    (names : List String) : List String :=
  if emulate_altgr && !(rmenuUp rmenu) then AltGr_modifiers altgr_modifier names true
  else names

/-- The NumLock quirk step of `mask_to_names` in isolation. -/
def numlockStep (num_lock_modifier : Option String) (numlock : Int)
    (names : List String) : List String :=
  match num_lock_modifier with
  | some nl =>
    if nl == "" then names
    else if numlock ≠ 0 then (if nl ∈ names then names else names ++ [nl])
    else names.erase nl
  | none => names

/-- Written from the spec's words, for comparison with the code: the spec
lists the quirk hooks "applied after the base decomposition, in this
order: ... (3) [NumLock] ... (4) [AltGr]", i.e. the NumLock step first and
the AltGr step second. -/
def mask_to_names_specOrder (emulate_altgr : Bool)
    (altgr_modifier num_lock_modifier : Option String)
    (q : MaskQueries) (mask : Nat) : List String :=
  altgrStep emulate_altgr altgr_modifier q.rmenu
    (numlockStep num_lock_modifier q.numlock (base_mask_to_names mask))

/-- State of the `Keyboard` handler object.  `delayed_event` is the
pending AltGr-disambiguation record (the callback is the single downstream
consumer and is left implicit), `timers` counts the outstanding
`GLib.timeout_add` callbacks scheduled for `send_delayed_key`, and
`keyTranslations` is the `KEY_TRANSLATIONS` table keyed by
(name, keyval, keycode) triples. -/
structure KbState where
  emulate_altgr : Bool
  hyper_modifier : Bool
  delayed_event : Option (Nat × KeyEvent)
  altgr_modifier : Option String
  num_lock_modifier : Option String
  modifier_mappings_count : Nat
  timers : Nat
  keyTranslations : List ((String × Int × Int) × String)
deriving Repr, DecidableEq

/-- Embedding of `Keyboard.send_delayed_key()`: if a delayed event is
pending, clear the slot, query `GetKeyState(VK_RMENU)` (the result is the
input `r`) and deliver the event downstream only when Right Alt reads up. -/
def send_delayed_key (r : Int) (s : KbState) : KbState × List (Nat × KeyEvent) :=
  match s.delayed_event with
  | none => (s, [])
  | some dk =>
    if rmenuUp r then ({ s with delayed_event := none }, [dk])
    else ({ s with delayed_event := none }, [])

/-- Embedding of `Keyboard.process_key_event(send_key_action_cb, wid, key_event)`.
`r1` is the `GetKeyState(VK_RMENU)` result read in the method body (used
only when the AltGr-emulation guard holds) and `r2` the one read inside
the `send_delayed_key` flush (used only when that flush runs with a
pending event).  The output list holds the events passed to
`super().process_key_event`, i.e. delivered downstream. -/
def process_key_event (s : KbState) (wid : Nat) (ev : KeyEvent) (r1 r2 : Int) :
    KbState × List (Nat × KeyEvent) :=
  if ev.keyval = 2 ^ 24 - 1 ∧ ev.keyname = "VoidSymbol" then (s, [])
  else
    let sEv : KbState × KeyEvent :=
      if ev.keyname = "Delete" then
        ({ s with hyper_modifier := ev.pressed },
         { ev with keyname := "Hyper_L", keyval := 16777215, group := 0, keycode := 50 })
      else if s.hyper_modifier then
        (s, { ev with modifiers := ev.modifiers ++ ["mod4"] })
      else (s, ev)
    let s1 := sEv.1
    let ev1 := sEv.2
    if s1.emulate_altgr = true ∧ strTruthy s1.altgr_modifier = true ∧
        0 < s1.modifier_mappings_count then
      if ev1.keyname = "Control_L" then
        if rmenuUp r1 then
          ({ s1 with delayed_event := some (wid, ev1), timers := s1.timers + 1 }, [])
        else (s1, [])
      else
        let sEv2 : KbState × KeyEvent :=
          if ev1.keyname = "Alt_R" then
            (if rmenuUp r1 then { s1 with delayed_event := none } else s1,
             { ev1 with
               string := ""
               keyname := ""
               group := -1
               keyval := -1
               keycode := -1
               modifiers := AltGr_modifiers s1.altgr_modifier ev1.modifiers true })
          else (s1, ev1)
        let flush := send_delayed_key r2 sEv2.1
        (flush.1, flush.2 ++ [(wid, sEv2.2)])
    else
      let flush := send_delayed_key r2 s1
      (flush.1, flush.2 ++ [(wid, ev1)])

/-- An input consumed by the event loop: either a raw key event (with the
two `GetKeyState(VK_RMENU)` results its processing may read) or the firing
of one scheduled `send_delayed_key` timeout (with the `GetKeyState` result
that firing may read). -/
inductive KbInput where
  | key (wid : Nat) (ev : KeyEvent) (r1 r2 : Int)
  | fire (r : Int)
deriving Repr, DecidableEq

/-- One step of the event loop.  A timer can fire only while at least one
scheduled timeout is outstanding. -/
def stepInput (s : KbState) (i : KbInput) : KbState × List (Nat × KeyEvent) :=
  match i with
  | .key wid ev r1 r2 => process_key_event s wid ev r1 r2
  | .fire r =>
    if 0 < s.timers then send_delayed_key r { s with timers := s.timers - 1 }
    else (s, [])

/-- Run the event loop over a list of inputs, concatenating the delivered
downstream events. -/
def run (s : KbState) : List KbInput → KbState × List (Nat × KeyEvent)
  | [] => (s, [])
  | i :: is =>
    let so := stepInput s i
    let rest := run so.1 is
    (rest.1, so.2 ++ rest.2)

/-- Insert-or-overwrite into the association-list model of the Python
dict `KEY_TRANSLATIONS`. -/
def dictInsert (t : List ((String × Int × Int) × String)) (k : String × Int × Int)
    (v : String) : List ((String × Int × Int) × String) :=
  match t with
  | [] => [(k, v)]
  | (k', v') :: rest => if k' = k then (k, v) :: rest else (k', v') :: dictInsert rest k v

/-- Lookup in the association-list model of the Python dict. -/
def dictLookup (t : List ((String × Int × Int) × String)) (k : String × Int × Int) :
    Option String :=
  match t with
  | [] => none
  | (k', v') :: rest => if k' = k then some v' else dictLookup rest k

/-- Embedding of `Keyboard.init_vars()`: reset the modifier bindings and
the pending slot, and insert the three locale-quirk entries into
`KEY_TRANSLATIONS`.  The win32 layout-handle cache and the
last-layout-message field are not modelled (no claim touches them). -/
def init_vars (s : KbState) : KbState :=
  { s with
    num_lock_modifier := none
    altgr_modifier := none
    delayed_event := none
    keyTranslations :=
      dictInsert
        (dictInsert
          (dictInsert s.keyTranslations ("period", 46, 110) "KP_Decimal")
          ("dead_tilde", 65107, 50) "asciitilde")
        ("dead_grave", 65104, 55) "grave" }

/-- Lookup in an association list from key names to modifier tokens
(the `modifier_keys` dict built by the base class). -/
def lookupAssoc (l : List (String × String)) (k : String) : Option String :=
  match l with
  | [] => none
  | (k', v) :: rest => if k' = k then some v else lookupAssoc rest k

/-- The loop in `set_modifier_mappings` looking for an AltGr modifier:
the first truthy entry among "ISO_Level3_Shift" and "Mode_switch". -/
def findAltgrMod (modifier_keys : List (String × String)) : Option String :=
  match (["ISO_Level3_Shift", "Mode_switch"].map (lookupAssoc modifier_keys)).filter
      strTruthy with
  | [] => none
  | m :: _ => m

/-- Embedding of `Keyboard.set_modifier_mappings(mappings)`.  The base
class (not in the sources) digests `mappings` into the `modifier_keys`
dict and the `modifier_mappings` length, which are therefore taken as
inputs here; the win32 override then rebinds `num_lock_modifier` (a plain
`dict.get`, possibly `None`) and `altgr_modifier` (kept unchanged when no
truthy AltGr entry is found). -/
def set_modifier_mappings (modifier_keys : List (String × String)) (count : Nat)
    (s : KbState) : KbState :=
  { s with
    modifier_mappings_count := count
    num_lock_modifier := lookupAssoc modifier_keys "Num_Lock"
    altgr_modifier :=
      match findAltgrMod modifier_keys with
      | some m => some m
      | none => s.altgr_modifier }

/-- The delay (in ms) of the disambiguation timeout,
`XPRA_EMULATE_ALTGR_CONTROL_KEY_DELAY`, at its default value. -/
def EMULATE_ALTGR_CONTROL_KEY_DELAY : Nat := 50

/-- Python `str.strip()` over the tokens handled here: drop leading and
trailing ASCII whitespace. -/
def isPySpace (c : Char) : Bool :=
  c == ' ' || c == '\t' || c == '\n' || c == '\r' || c == '\x0b' || c == '\x0c'

/-- Strip leading and trailing whitespace, as Python `str.strip()` does. -/
def pyStrip (s : String) : String :=
  String.mk (((s.toList.dropWhile isPySpace).reverse.dropWhile isPySpace).reverse)

/-- Split a character list at every comma; like Python `str.split(",")`,
adjacent commas yield empty fields and the empty input yields one empty
field. -/
def splitCommaChars : List Char → List (List Char)
  | [] => [[]]
  | c :: rest =>
    if c = ',' then [] :: splitCommaChars rest
    else
      match splitCommaChars rest with
      | [] => [[c]]
      | g :: gs => (c :: g) :: gs

/-- Python `x.split(",")`. -/
def pySplitComma (s : String) : List String :=
  (splitCommaChars s.toList).map String.mk

/-- Embedding of `audio_option_or_all(name, options, all_values)` from
`xpra/audio/common.py`: with no options, return all values; otherwise
split every option on commas, strip each token, and collect the valid
tokens (the invalid ones are only accumulated for a warning message). -/
def audio_option_or_all (name : String) (options : List String)
    (all_values : List String) : List String :=
  let _ := name
  if options = [] then all_values
  else
    let r := options.foldl
      (fun (acc : List String × List String) x =>
        (pySplitComma x).foldl
          (fun (acc : List String × List String) o =>
            let o := pyStrip o
            if o ∈ all_values then (acc.1 ++ [o], acc.2) else (acc.1, acc.2 ++ [o]))
          acc)
      ([], [])
    r.1

/-! ## Helper lemmas -/

/-- The base decomposition never repeats a modifier token. -/
theorem base_mask_to_names_nodup (mask : Nat) : (base_mask_to_names mask).Nodup := by
  have hsub : ((MODIFIER_BITS.filter (fun p => decide (mask &&& p.2 ≠ 0))).map Prod.fst).Sublist
      (MODIFIER_BITS.map Prod.fst) :=
    (List.filter_sublist _).map _
  exact List.Nodup.sublist hsub (by decide)

/-- When a truthy AltGr token is bound and the event is a press, the token
is always a member of the adjusted modifier list, provided it is not one
of the tokens the step itself clears. -/
theorem altgr_mem_add (a : String) (l : List String) (ha : (a == "") = false)
    (hcl : a ∉ (["mod1", "mod2", "control"] : List String)) :
    a ∈ AltGr_modifiers (some a) l true := by
  simp only [AltGr_modifiers, ha, Bool.false_eq_true, if_false, if_true, List.foldl]
  have h1 : a ≠ "mod1" := by intro h; exact hcl (by simp [h])
  have h2 : a ≠ "mod2" := by intro h; exact hcl (by simp [h])
  have h3 : a ≠ "control" := by intro h; exact hcl (by simp [h])
  rw [List.mem_erase_of_ne h3, List.mem_erase_of_ne h2, List.mem_erase_of_ne h1]
  by_cases hm : a ∈ l <;> simp [hm]

/-- Membership characterisation of the AltGr press adjustment on a
duplicate-free list, with a truthy bound token. -/
theorem mem_AltGr_pressed (a : String) (l : List String) (x : String)
    (ha : (a == "") = false) (hl : l.Nodup) :
    x ∈ AltGr_modifiers (some a) l true ↔
      (x ∈ l ∨ x = a) ∧ x ∉ (["mod1", "mod2", "control"] : List String) := by
  simp only [AltGr_modifiers, ha, Bool.false_eq_true, if_false, if_true, List.foldl]
  have hm1 : (if a ∈ l then l else l ++ [a]).Nodup := by
    by_cases hm : a ∈ l <;> simp [hm, List.nodup_append, hl]
  have hm2 : ((if a ∈ l then l else l ++ [a]).erase "mod1").Nodup := hm1.erase _
  have hm3 : (((if a ∈ l then l else l ++ [a]).erase "mod1").erase "mod2").Nodup := hm2.erase _
  rw [List.Nodup.mem_erase_iff hm3, List.Nodup.mem_erase_iff hm2, List.Nodup.mem_erase_iff hm1]
  have hmem : x ∈ (if a ∈ l then l else l ++ [a]) ↔ (x ∈ l ∨ x = a) := by
    by_cases hm : a ∈ l
    · simp only [hm, if_true]
      constructor
      · exact fun h => Or.inl h
      · rintro (h | rfl) <;> [exact h; exact hm]
    · simp [hm]
  rw [hmem]
  simp only [List.mem_cons, List.not_mem_nil, or_false, List.mem_singleton]
  tauto

/-- Membership characterisation of the AltGr press adjustment on a
duplicate-free list when no AltGr token is bound: nothing is added, the
three spurious tokens are still cleared. -/
theorem mem_AltGr_none (l : List String) (x : String) (hl : l.Nodup) :
    x ∈ AltGr_modifiers none l true ↔
      x ∈ l ∧ x ∉ (["mod1", "mod2", "control"] : List String) := by
  simp only [AltGr_modifiers, List.foldl]
  have hm2 : (l.erase "mod1").Nodup := hl.erase _
  have hm3 : ((l.erase "mod1").erase "mod2").Nodup := hm2.erase _
  rw [List.Nodup.mem_erase_iff hm3, List.Nodup.mem_erase_iff hm2, List.Nodup.mem_erase_iff hl]
  simp only [List.mem_cons, List.not_mem_nil, or_false, List.mem_singleton]
  tauto

/-- Inserting into the dict makes the key map to the value. -/
theorem dictLookup_insert_self (t : List ((String × Int × Int) × String))
    (k : String × Int × Int) (v : String) :
    dictLookup (dictInsert t k v) k = some v := by
  induction t with
  | nil => simp [dictInsert, dictLookup]
  | cons p rest ih =>
    by_cases h : p.1 = k
    · simp [dictInsert, dictLookup, h]
    · simp [dictInsert, dictLookup, h, ih]

/-- Inserting into the dict leaves every other key unchanged. -/
theorem dictLookup_insert_ne (t : List ((String × Int × Int) × String))
    (k k' : String × Int × Int) (v : String) (h : k' ≠ k) :
    dictLookup (dictInsert t k v) k' = dictLookup t k' := by
  induction t with
  | nil => simp [dictInsert, dictLookup, Ne.symm h]
  | cons p rest ih =>
    by_cases hp : p.1 = k
    · subst hp
      simp [dictInsert, dictLookup, Ne.symm h]
    · simp [dictInsert, dictLookup, hp, ih]

/-- The first component of the inner token loop of `audio_option_or_all`:
collected valid tokens are the stripped tokens that lie in `all`. -/
theorem audio_fold_inner (all : List String) (toks : List String) :
    ∀ acc : List String × List String,
      (toks.foldl
        (fun (acc : List String × List String) o =>
          let o := pyStrip o
          if o ∈ all then (acc.1 ++ [o], acc.2) else (acc.1, acc.2 ++ [o])) acc).1 =
      acc.1 ++ (toks.map pyStrip).filter (fun o => decide (o ∈ all)) := by
  induction toks with
  | nil => intro acc; simp
  | cons t ts ih =>
    intro acc
    simp only [List.foldl_cons, List.map_cons, List.filter_cons]
    rw [ih]
    by_cases h : pyStrip t ∈ all
    · simp [h, List.append_assoc]
    · simp [h]

/-- The first component of the option loop of `audio_option_or_all`:
collected valid tokens over all options. -/
theorem audio_fold_outer (all : List String) (opts : List String) :
    ∀ acc : List String × List String,
      (opts.foldl
        (fun (acc : List String × List String) x =>
          (pySplitComma x).foldl
            (fun (acc : List String × List String) o =>
              let o := pyStrip o
              if o ∈ all then (acc.1 ++ [o], acc.2) else (acc.1, acc.2 ++ [o]))
            acc) acc).1 =
      acc.1 ++ ((opts.map (fun x => (pySplitComma x).map pyStrip)).flatten).filter
        (fun o => decide (o ∈ all)) := by
  induction opts with
  | nil => intro acc; simp
  | cons x xs ih =>
    intro acc
    simp only [List.foldl_cons, List.map_cons, List.flatten_cons, List.filter_append]
    rw [ih, audio_fold_inner]
    simp [List.append_assoc]

/-- C10: `audio_option_or_all` returns `all_values` in order when no
options were given, and otherwise returns, in encounter order with
multiplicity, exactly the comma-split, whitespace-stripped tokens of the
options that are members of `all_values`; consequently a token outside
`all_values` never appears in the result (invalid tokens are only
collected for a warning, never an error). -/
theorem audio_option_or_all_spec (name : String) (options all_values : List String) :
    audio_option_or_all name options all_values =
      (if options = [] then all_values
       else ((options.map (fun x => (pySplitComma x).map pyStrip)).flatten).filter
          (fun o => decide (o ∈ all_values))) ∧
    ∀ t, t ∈ audio_option_or_all name options all_values → t ∈ all_values := by
  have hmain : audio_option_or_all name options all_values =
      (if options = [] then all_values
       else ((options.map (fun x => (pySplitComma x).map pyStrip)).flatten).filter
          (fun o => decide (o ∈ all_values))) := by
    by_cases h : options = []
    · simp [audio_option_or_all, h]
    · simp only [audio_option_or_all, h, if_false]
      rw [audio_fold_outer]
      simp
  refine ⟨hmain, ?_⟩
  intro t ht
  rw [hmain] at ht
  by_cases h : options = []
  · simpa [h] using ht
  · simp only [h, if_false] at ht
    exact of_decide_eq_true (List.mem_filter.mp ht).2

/-- C10 witness: with options `["mp3, vorbis"]` and valid values
`["mp3", "opus", "flac"]` the token `mp3` is returned and is valid. -/
theorem audio_option_or_all_spec_witness :
    ("mp3" : String) ∈ (["mp3", "opus", "flac"] : List String) :=
  (audio_option_or_all_spec "codecs" ["mp3, vorbis"] ["mp3", "opus", "flac"]).2 "mp3"
    (by decide)

/-- C9: an event with keyval 2^24-1 and keyname VoidSymbol is dropped
entirely by `process_key_event`: nothing is forwarded downstream and the
whole handler state (hyper flag, pending delayed event, timers, bindings,
translation table) is left unchanged; in particular the pending event is
not flushed. -/
theorem voidsymbol_event_dropped (s : KbState) (wid : Nat) (ev : KeyEvent) (r1 r2 : Int)
    (h1 : ev.keyval = 2 ^ 24 - 1) (h2 : ev.keyname = "VoidSymbol") :
    process_key_event s wid ev r1 r2 = (s, []) := by
  simp [process_key_event, h1, h2]

/-- C9 witness: a concrete VoidSymbol event against a state with a hyper
flag set and a pending delayed event leaves that state intact and
delivers nothing. -/
theorem voidsymbol_event_dropped_witness :
    process_key_event
      ⟨true, true, some (3, ⟨"Control_L", 65507, 162, 0, [], true, ""⟩), some "mod5",
        some "mod2", 1, 1, []⟩ 1 ⟨"VoidSymbol", 16777215, 0, 0, [], true, ""⟩ 0 0 =
      (⟨true, true, some (3, ⟨"Control_L", 65507, 162, 0, [], true, ""⟩), some "mod5",
        some "mod2", 1, 1, []⟩, []) :=
  voidsymbol_event_dropped _ 1 _ 0 0 (by decide) rfl

/-- C2 counterexample: with AltGr emulation on, Right Alt physically down
(GetKeyState 65409) and a token bound to AltGr, the mask whose base
decomposition is exactly the token mod2 resolves to a list from which
mod2 has been removed — the code removes mod2 as well, while the claim
allows only control and mod1 to be removed. -/
theorem mask_to_names_strips_mod2_counterexample :
    base_mask_to_names 16 = ["mod2"] ∧
    mask_to_names true (some "mod5") none ⟨65409, 0⟩ 16 = ["mod5"] := by decide

/-- C3 counterexample: with Right Alt down, NumLock on and the NumLock
token bound to mod2 (a token the AltGr step strips), the code yields a
list that still contains mod2 — the AltGr step runs first and the NumLock
step re-adds the token afterwards — whereas composing the steps in the
spec's stated order (NumLock first, AltGr second) would strip it. -/
theorem mask_to_names_order_counterexample :
    mask_to_names true (some "mod5") (some "mod2") ⟨65409, 1⟩ 0 = ["mod5", "mod2"] ∧
    mask_to_names_specOrder true (some "mod5") (some "mod2") ⟨65409, 1⟩ 0 = ["mod5"] := by
  decide

/-- C6 counterexample: with no token bound to AltGr, emulation on and
Right Alt down, the AltGr quirk step is not a no-op — it still strips
"control" from the decomposition of the control-bit mask. -/
theorem altgr_unbound_not_noop_counterexample :
    base_mask_to_names 4 = ["control"] ∧
    mask_to_names true none none ⟨65409, 0⟩ 4 = [] := by decide

/-- C1 counterexample: a Control_L press (Right Alt reading up, value 0)
becomes pending; the following Alt_R is processed while the live Right-Alt
state reads down (65409) at the branch query but up (0) at the flush
query, so the pending Control_L IS delivered downstream and two events are
forwarded, contradicting the claim for this event sequence. -/
theorem pending_control_delivered_counterexample :
    (run ⟨true, false, none, some "mod5", none, 1, 0, []⟩
      [KbInput.key 1 ⟨"Control_L", 65507, 162, 0, [], true, ""⟩ 0 0,
       KbInput.key 2 ⟨"Alt_R", 65514, 165, 0, [], true, ""⟩ 65409 0]).2 =
      [(1, ⟨"Control_L", 65507, 162, 0, [], true, ""⟩),
       (2, ⟨"", -1, -1, -1, ["mod5"], true, ""⟩)] := by decide

/-- C4 counterexample: two Control_L presses inside the delay window leave
two scheduled timeout callbacks outstanding — the first timer is never
cancelled when its pending event is superseded — so "at most one
timer/pending event is ever outstanding" fails (the earlier pending event
is indeed dropped undelivered: no output is produced). -/
theorem two_timers_outstanding_counterexample :
    (run ⟨true, false, none, some "mod5", none, 1, 0, []⟩
      [KbInput.key 1 ⟨"Control_L", 65507, 162, 0, [], true, ""⟩ 0 0,
       KbInput.key 2 ⟨"Control_L", 65507, 162, 0, [], true, ""⟩ 0 0]).1.timers = 2 ∧
    (run ⟨true, false, none, some "mod5", none, 1, 0, []⟩
      [KbInput.key 1 ⟨"Control_L", 65507, 162, 0, [], true, ""⟩ 0 0,
       KbInput.key 2 ⟨"Control_L", 65507, 162, 0, [], true, ""⟩ 0 0]).2 = [] := by decide

/-- C7 counterexample: an Alt_R event processed while the live Right-Alt
state reads up (GetKeyState 0) still gets the bound AltGr token mod5
injected into the forwarded modifier-refresh event — the code always calls
the press branch of AltGr_modifiers, it never clears the token according
to the live key state. -/
theorem altgr_always_injected_counterexample :
    (process_key_event ⟨true, false, none, some "mod5", none, 1, 0, []⟩ 1
      ⟨"Alt_R", 65514, 165, 0, [], true, ""⟩ 0 0).2 =
      [(1, ⟨"", -1, -1, -1, ["mod5"], true, ""⟩)] := by decide

/-- C2 (amended): with AltGr emulation enabled, the live Right-Alt state
reading down, a non-empty token bound to AltGr and no NumLock token
bound, `mask_to_names` returns the base decomposition with the bound
token added and then exactly the tokens control, mod1 AND mod2 removed
(the code also strips mod2, which the original claim did not allow). -/
theorem mask_to_names_altgr_down (a : String) (q : MaskQueries) (mask : Nat)
    (ha : a ≠ "") (hr : rmenuUp q.rmenu = false) :
    ∀ x, x ∈ mask_to_names true (some a) none q mask ↔
      (x ∈ base_mask_to_names mask ∨ x = a) ∧
        x ∉ (["mod1", "mod2", "control"] : List String) := by
  intro x
  have ha' : (a == "") = false := by simp [ha]
  have hun : mask_to_names true (some a) none q mask =
      AltGr_modifiers (some a) (base_mask_to_names mask) true := by
    simp [mask_to_names, hr]
  rw [hun, mem_AltGr_pressed a _ x ha' (base_mask_to_names_nodup mask)]

/-- C2 witness: for mask 5 (shift and control bits) with AltGr token mod5
bound and Right Alt down, `shift` is kept in the result. -/
theorem mask_to_names_altgr_down_witness :
    ("shift" ∈ base_mask_to_names 5 ∨ "shift" = "mod5") ∧
      "shift" ∉ (["mod1", "mod2", "control"] : List String) :=
  (mask_to_names_altgr_down "mod5" ⟨65409, 0⟩ 5 (by decide) (by decide) "shift").mp
    (by decide)

/-- C3 (amended): the quirk steps of `mask_to_names` are applied in the
order AltGr step first, NumLock step second (the reverse of the spec's
stated order); consequently, when NumLock is on and a non-empty NumLock
token is bound, that token is always present in the result — even when it
is one of the tokens the AltGr step strips. -/
theorem mask_to_names_step_order (e : Bool) (a n : Option String) (q : MaskQueries)
    (mask : Nat) :
    mask_to_names e a n q mask =
      numlockStep n q.numlock (altgrStep e a q.rmenu (base_mask_to_names mask)) ∧
    ∀ nl, n = some nl → nl ≠ "" → q.numlock ≠ 0 →
      nl ∈ mask_to_names e a n q mask := by
  constructor
  · cases n <;> rfl
  · intro nl hn hnl hq
    subst hn
    have hnl' : (nl == "") = false := by simp [hnl]
    simp only [mask_to_names, hnl', Bool.false_eq_true, if_false, if_pos hq]
    by_cases hmem :
        nl ∈ (if true = true ∧ e && !rmenuUp q.rmenu = true then
          AltGr_modifiers a (base_mask_to_names mask) true else base_mask_to_names mask) <;>
      by_cases hc : e && !rmenuUp q.rmenu = true <;>
        simp_all

/-- C3 witness: with Right Alt down, NumLock on and the NumLock token
mod2 bound, mod2 is present in the result of `mask_to_names`. -/
theorem mask_to_names_step_order_witness :
    "mod2" ∈ mask_to_names true (some "mod5") (some "mod2") ⟨65409, 1⟩ 0 :=
  (mask_to_names_step_order true (some "mod5") (some "mod2") ⟨65409, 1⟩ 0).2 "mod2" rfl
    (by decide) (by decide)

/-- C6 (amended): a missing NumLock binding makes the NumLock quirk step
of `mask_to_names` a no-op; a missing AltGr binding makes the AltGr
injection a no-op (nothing is added), but when emulation is on and Right
Alt reads down the step still strips mod1, mod2 and control from the
list. -/
theorem missing_binding_steps (e : Bool) (a : Option String) (q : MaskQueries)
    (mask : Nat) (hr : rmenuUp q.rmenu = false) :
    mask_to_names e a none q mask = altgrStep e a q.rmenu (base_mask_to_names mask) ∧
    ∀ x, x ∈ mask_to_names true none none q mask ↔
      x ∈ base_mask_to_names mask ∧ x ∉ (["mod1", "mod2", "control"] : List String) := by
  constructor
  · rfl
  · intro x
    have hun : mask_to_names true none none q mask =
        AltGr_modifiers none (base_mask_to_names mask) true := by
      simp [mask_to_names, hr]
    rw [hun, mem_AltGr_none _ x (base_mask_to_names_nodup mask)]

/-- C6 witness: with no bindings at all and Right Alt down, `shift`
survives the AltGr strip for mask 5. -/
theorem missing_binding_steps_witness :
    "shift" ∈ mask_to_names true none none ⟨65409, 0⟩ 5 :=
  ((missing_binding_steps true none ⟨65409, 0⟩ 5 (by decide)).2 "shift").mpr (by decide)

/-- C4 (amended): the pending slot holds at most one record, and a second
Control_L press (Right Alt reading up) arriving while one is already
pending overwrites it — the superseded event is never delivered (no
downstream output is produced) and the new event becomes pending.  The
superseded event's timer is however NOT cancelled: a further timeout is
merely scheduled on top of the old one (timer count grows by one), so more
than one timer callback can be outstanding. -/
theorem second_control_supersedes_pending (s : KbState) (wid : Nat) (ev : KeyEvent)
    (r1 r2 : Int) (old : Nat × KeyEvent)
    (hem : s.emulate_altgr = true) (hag : strTruthy s.altgr_modifier = true)
    (hmc : 0 < s.modifier_mappings_count) (hname : ev.keyname = "Control_L")
    (hr : rmenuUp r1 = true) (_hold : s.delayed_event = some old) :
    (process_key_event s wid ev r1 r2).2 = [] ∧
    (process_key_event s wid ev r1 r2).1.delayed_event =
      some (wid,
        if s.hyper_modifier then { ev with modifiers := ev.modifiers ++ ["mod4"] } else ev) ∧
    (process_key_event s wid ev r1 r2).1.timers = s.timers + 1 := by
  by_cases hh : s.hyper_modifier <;>
    simp [process_key_event, hname, hem, hag, hmc, hr, hh]

/-- C4 witness: a concrete Control_L press over a state with a pending
record produces no output and installs the new pending record. -/
theorem second_control_supersedes_pending_witness :
    (process_key_event
      ⟨true, false, some (9, ⟨"Control_L", 65507, 162, 0, [], true, ""⟩), some "mod5",
        none, 1, 1, []⟩ 1 ⟨"Control_L", 65507, 162, 0, [], true, ""⟩ 0 0).2 = [] :=
  (second_control_supersedes_pending
    ⟨true, false, some (9, ⟨"Control_L", 65507, 162, 0, [], true, ""⟩), some "mod5",
      none, 1, 1, []⟩ 1 ⟨"Control_L", 65507, 162, 0, [], true, ""⟩ 0 0
    (9, ⟨"Control_L", 65507, 162, 0, [], true, ""⟩)
    rfl (by decide) (by decide) rfl (by decide) rfl).1

/-- C5: a Control_L press (Right Alt reading up) enters the pending state;
if no further key event arrives and the timer fires with Right Alt still
reading up, the pending Control_L is delivered downstream exactly once,
the pending slot is cleared, and any later timer firing or call of
send_delayed_key delivers nothing.  The default disambiguation delay is
50. -/
theorem pending_control_delivered_on_timeout (s : KbState) (wid : Nat) (ev : KeyEvent)
    (r1 r2 rf rf2 : Int)
    (hem : s.emulate_altgr = true) (hag : strTruthy s.altgr_modifier = true)
    (hmc : 0 < s.modifier_mappings_count) (hname : ev.keyname = "Control_L")
    (hr1 : rmenuUp r1 = true) (hrf : rmenuUp rf = true) :
    (run s [KbInput.key wid ev r1 r2, KbInput.fire rf, KbInput.fire rf2]).2 =
      [(wid,
        if s.hyper_modifier then { ev with modifiers := ev.modifiers ++ ["mod4"] } else ev)] ∧
    (run s [KbInput.key wid ev r1 r2, KbInput.fire rf, KbInput.fire rf2]).1.delayed_event =
      none ∧
    (∀ r',
      (send_delayed_key r'
        (run s [KbInput.key wid ev r1 r2, KbInput.fire rf, KbInput.fire rf2]).1).2 = []) ∧
    EMULATE_ALTGR_CONTROL_KEY_DELAY = 50 := by
  rcases Nat.eq_zero_or_pos s.timers with ht | ht <;>
    by_cases hh : s.hyper_modifier <;>
      simp [run, stepInput, process_key_event, send_delayed_key, hname, hem, hag, hmc,
        hr1, hrf, hh, ht, EMULATE_ALTGR_CONTROL_KEY_DELAY]

/-- C5 witness: a concrete lone Control_L press followed by the timeout
delivers exactly that Control_L. -/
theorem pending_control_delivered_on_timeout_witness :
    (run ⟨true, false, none, some "mod5", none, 1, 0, []⟩
      [KbInput.key 1 ⟨"Control_L", 65507, 162, 0, [], true, ""⟩ 0 0,
       KbInput.fire 0, KbInput.fire 0]).2 =
      [(1, ⟨"Control_L", 65507, 162, 0, [], true, ""⟩)] := by
  have h := pending_control_delivered_on_timeout
    ⟨true, false, none, some "mod5", none, 1, 0, []⟩ 1
    ⟨"Control_L", 65507, 162, 0, [], true, ""⟩ 0 0 0 0
    rfl (by decide) (by decide) rfl (by decide) (by decide)
  simpa using h.1

/-- C7 (amended): when an Alt_R event is processed with AltGr emulation
enabled, a token bound to AltGr and non-empty modifier mappings, the event
forwarded downstream (the last output, after any flush of a pending
event) has all its key identity fields cleared — empty string and keyname,
group, keyval and keycode set to the invalid sentinel -1 — and only its
modifier list is updated; the bound AltGr token is however always
injected via the press branch of AltGr_modifiers (with mod1, mod2 and
control stripped), irrespective of the live Right-Alt key state: the live
state only decides whether a pending delayed Control_L is cancelled. -/
theorem altr_forwards_pure_modifier_refresh (s : KbState) (wid : Nat) (ev : KeyEvent)
    (r1 r2 : Int)
    (hem : s.emulate_altgr = true) (hag : strTruthy s.altgr_modifier = true)
    (hmc : 0 < s.modifier_mappings_count) (hname : ev.keyname = "Alt_R") :
    (∃ pre,
      (process_key_event s wid ev r1 r2).2 =
        pre ++ [(wid,
          { keyname := ""
            keyval := -1
            keycode := -1
            group := -1
            modifiers := AltGr_modifiers s.altgr_modifier
              (if s.hyper_modifier then ev.modifiers ++ ["mod4"] else ev.modifiers) true
            pressed := ev.pressed
            string := "" })]) ∧
    ∀ a, s.altgr_modifier = some a → a ∉ (["mod1", "mod2", "control"] : List String) →
      a ∈ AltGr_modifiers s.altgr_modifier
        (if s.hyper_modifier then ev.modifiers ++ ["mod4"] else ev.modifiers) true := by
  constructor
  · refine ⟨(send_delayed_key r2
      (if rmenuUp r1 then { s with delayed_event := none } else s)).2, ?_⟩
    by_cases hh : s.hyper_modifier <;> by_cases hr : rmenuUp r1 <;>
      simp [process_key_event, hname, hem, hag, hmc, hh, hr]
  · intro a hset hcl
    rw [hset]
    rw [hset] at hag
    have ha : (a == "") = false := by simpa [strTruthy] using hag
    exact altgr_mem_add a _ ha hcl

/-- C7 witness: a concrete Alt_R event (Right Alt reading down at both
queries, no pending event) forwards one pure modifier-refresh event, and
the bound token mod5 is injected. -/
theorem altr_forwards_pure_modifier_refresh_witness :
    ("mod5" : String) ∈ AltGr_modifiers (some "mod5")
      (if false then ([] : List String) ++ ["mod4"] else ([] : List String)) true := by
  have h := altr_forwards_pure_modifier_refresh
    ⟨true, false, none, some "mod5", none, 1, 0, []⟩ 1
    ⟨"Alt_R", 65514, 165, 0, [], true, ""⟩ 65409 65409
    rfl (by decide) (by decide) rfl
  exact h.2 "mod5" rfl (by decide)

/-- C1 (amended): with AltGr emulation enabled, a token bound to AltGr,
non-empty modifier mappings and the live Right-Alt state reading up at
the Control_L press, a Control_L press followed by an Alt_R before the
timer fires delivers no Control_L downstream and forwards exactly one
modifier-refresh event — provided the live Right-Alt state does not flip
from down (at the Alt_R branch query) to up (at the immediately following
flush query); the original claim omitted that proviso and fails without
it. -/
theorem altr_within_window_cancels_control (s : KbState) (wid1 wid2 : Nat)
    (ctrl alt : KeyEvent) (c1 c2 a1 a2 : Int)
    (hem : s.emulate_altgr = true) (hag : strTruthy s.altgr_modifier = true)
    (hmc : 0 < s.modifier_mappings_count)
    (hctrl : ctrl.keyname = "Control_L") (hc1 : rmenuUp c1 = true)
    (halt : alt.keyname = "Alt_R")
    (hcons : ¬(rmenuUp a1 = false ∧ rmenuUp a2 = true)) :
    (run s [KbInput.key wid1 ctrl c1 c2, KbInput.key wid2 alt a1 a2]).2 =
      [(wid2,
        { keyname := ""
          keyval := -1
          keycode := -1
          group := -1
          modifiers := AltGr_modifiers s.altgr_modifier
            (if s.hyper_modifier then alt.modifiers ++ ["mod4"] else alt.modifiers) true
          pressed := alt.pressed
          string := "" })] ∧
    (run s [KbInput.key wid1 ctrl c1 c2, KbInput.key wid2 alt a1 a2]).1.delayed_event =
      none := by
  have hsplit : rmenuUp a1 = true ∨ (rmenuUp a1 = false ∧ rmenuUp a2 = false) := by
    cases h1 : rmenuUp a1
    · cases h2 : rmenuUp a2
      · exact Or.inr ⟨rfl, rfl⟩
      · exact absurd ⟨h1, h2⟩ hcons
    · exact Or.inl rfl
  rcases hsplit with ha1 | ⟨ha1, ha2⟩
  · by_cases hh : s.hyper_modifier <;>
      simp [run, stepInput, process_key_event, send_delayed_key, hem, hag, hmc, hctrl,
        hc1, halt, hh, ha1]
  · by_cases hh : s.hyper_modifier <;>
      simp [run, stepInput, process_key_event, send_delayed_key, hem, hag, hmc, hctrl,
        hc1, halt, hh, ha1, ha2]

/-- C1 witness: a concrete Control_L press followed by an Alt_R (Right Alt
reading down at both Alt_R-time queries) clears the pending slot without
delivering the Control_L. -/
theorem altr_within_window_cancels_control_witness :
    (run ⟨true, false, none, some "mod5", none, 1, 0, []⟩
      [KbInput.key 1 ⟨"Control_L", 65507, 162, 0, [], true, ""⟩ 0 0,
       KbInput.key 2 ⟨"Alt_R", 65514, 165, 0, [], true, ""⟩ 65409 65409]).1.delayed_event =
      none :=
  (altr_within_window_cancels_control
    ⟨true, false, none, some "mod5", none, 1, 0, []⟩ 1 2
    ⟨"Control_L", 65507, 162, 0, [], true, ""⟩ ⟨"Alt_R", 65514, 165, 0, [], true, ""⟩
    0 0 65409 65409 rfl (by decide) (by decide) rfl (by decide) rfl (by decide)).2

/-- Frame lemma: `send_delayed_key` never touches the translation table. -/
theorem send_delayed_key_keyTranslations (r : Int) (s : KbState) :
    (send_delayed_key r s).1.keyTranslations = s.keyTranslations := by
  cases hd : s.delayed_event <;> simp [send_delayed_key, hd] <;> split <;> rfl

/-- Frame lemma: `process_key_event` never touches the translation table. -/
theorem process_key_event_keyTranslations (s : KbState) (wid : Nat) (ev : KeyEvent)
    (r1 r2 : Int) :
    (process_key_event s wid ev r1 r2).1.keyTranslations = s.keyTranslations := by
  unfold process_key_event
  dsimp only
  repeat' split
  all_goals simp [send_delayed_key_keyTranslations]

/-- C8: `init_vars` inserts exactly the three locale-quirk entries into
the key translation table, each keyed by the full
(symbolic-name, raw-value, native-code) triple — every key outside those
three is left bound as before — and no other operation of the component
(`process_key_event`, `send_delayed_key`, `set_modifier_mappings`)
mutates the table. -/
theorem init_vars_key_translations (s : KbState) (k : String × Int × Int)
    (wid : Nat) (ev : KeyEvent) (r r1 r2 : Int)
    (mk : List (String × String)) (c : Nat)
    (hk : k ∉ ([("period", 46, 110), ("dead_tilde", 65107, 50),
        ("dead_grave", 65104, 55)] : List (String × Int × Int))) :
    dictLookup (init_vars s).keyTranslations ("period", 46, 110) = some "KP_Decimal" ∧
    dictLookup (init_vars s).keyTranslations ("dead_tilde", 65107, 50) = some "asciitilde" ∧
    dictLookup (init_vars s).keyTranslations ("dead_grave", 65104, 55) = some "grave" ∧
    dictLookup (init_vars s).keyTranslations k = dictLookup s.keyTranslations k ∧
    (process_key_event s wid ev r1 r2).1.keyTranslations = s.keyTranslations ∧
    (send_delayed_key r s).1.keyTranslations = s.keyTranslations ∧
    (set_modifier_mappings mk c s).keyTranslations = s.keyTranslations := by
  simp only [List.mem_cons, List.not_mem_nil, or_false, not_or] at hk
  obtain ⟨hk1, hk2, hk3⟩ := hk
  refine ⟨?_, ?_, ?_, ?_, process_key_event_keyTranslations s wid ev r1 r2,
    send_delayed_key_keyTranslations r s, rfl⟩
  · simp only [init_vars]
    rw [dictLookup_insert_ne _ _ _ _ (by decide), dictLookup_insert_ne _ _ _ _ (by decide),
      dictLookup_insert_self]
  · simp only [init_vars]
    rw [dictLookup_insert_ne _ _ _ _ (by decide), dictLookup_insert_self]
  · simp only [init_vars]
    rw [dictLookup_insert_self]
  · simp only [init_vars]
    rw [dictLookup_insert_ne _ _ _ _ hk3, dictLookup_insert_ne _ _ _ _ hk2,
      dictLookup_insert_ne _ _ _ _ hk1]

/-- C8 witness: over an initially empty table, the inserted entries are
present and an unrelated triple remains unbound, at a concrete state. -/
theorem init_vars_key_translations_witness :
    dictLookup (init_vars ⟨true, false, none, none, none, 0, 0, []⟩).keyTranslations
      ("period", 46, 110) = some "KP_Decimal" ∧
    dictLookup (init_vars ⟨true, false, none, none, none, 0, 0, []⟩).keyTranslations
      ("period", 46, 111) = none :=
  have h := init_vars_key_translations ⟨true, false, none, none, none, 0, 0, []⟩
    ("period", 46, 111) 1 ⟨"a", 97, 65, 0, [], true, ""⟩ 0 0 0 [] 0 (by decide)
  ⟨h.1, h.2.2.2.1⟩
